import Mathlib

/-!
# Verification of the `Color` color-conversion module

A shallow embedding of `src/colors/color.py` (class `Color`).  The Python
code is pure: every method is a function over strings, integer tuples and
float triples.  We model:

* Python `str` values as `String` / `List Char` (the code only uses ASCII);
* Python `int` as `ℤ` (or `ℕ` where the source value is a digit value);
* Python `float` as `ℚ` — the source's arithmetic (`+ - * /`, `%`, `round`,
  comparisons) is modelled exactly over the rationals.  Constants written in
  decimal in the source (`3.6`, `0.5`, `1.0/3.0`, …) are taken at their
  mathematical value;
* a raised Python exception as `Option.none` propagating outward.

The parsing primitive `int(s, 16)` is modelled by `pyIntHex`, including the
behaviours that matter for strings of length ≤ 2 (the only lengths the code
ever passes): surrounding ASCII whitespace, an optional sign, an optional
`0x`/`0X` marker and single underscores between digits are accepted, and an
empty or otherwise malformed string raises (`none`).
-/

/-- Hexadecimal digit value of a character, as `int(·, 16)` accepts digits:
`0`-`9`, `a`-`f`, `A`-`F` (by ASCII code point). -/
def hexVal? (c : Char) : Option Nat :=
  let n := c.toNat
  if 48 ≤ n ∧ n ≤ 57 then some (n - 48)
  else if 97 ≤ n ∧ n ≤ 102 then some (n - 87)
  else if 65 ≤ n ∧ n ≤ 70 then some (n - 55)
  else none

/-- The ASCII whitespace characters `int(·, 16)` strips from both ends. -/
def isPyWs (c : Char) : Bool :=
  c.toNat = 32 || c.toNat = 9 || c.toNat = 10 || c.toNat = 13 ||
    c.toNat = 11 || c.toNat = 12

/-- Digit run of an integer literal: hex digits with single underscores
allowed between two digits, accumulating the value. -/
def hexRun (acc : Nat) : List Char → Option Nat
  | [] => some acc
  | c :: rest =>
    if c = '_' then
      match rest with
      | [] => none
      | c2 :: rest2 =>
        match hexVal? c2 with
        | some v => hexRun (16 * acc + v) rest2
        | none => none
    else
      match hexVal? c with
      | some v => hexRun (16 * acc + v) rest
      | none => none

/-- Start of a digit run: at least one digit, no leading underscore. -/
def hexRunStart (l : List Char) : Option Nat :=
  match l with
  | [] => none
  | c :: rest =>
    if c = '_' then none
    else
      match hexVal? c with
      | some v => hexRun v rest
      | none => none

/-- Unsigned body of a base-16 integer literal: an optional `0x`/`0X`
marker (an underscore may directly follow it), then the digit run. -/
def parseBody (l : List Char) : Option Nat :=
  match l with
  | c0 :: c1 :: rest =>
    if c0 = '0' ∧ (c1 = 'x' ∨ c1 = 'X') then
      match rest with
      | '_' :: rest2 => hexRunStart rest2
      | _ => hexRunStart rest
    else hexRunStart l
  | _ => hexRunStart l

/-- Python `int(s, 16)`: strip ASCII whitespace from both ends, read an
optional sign, then the unsigned body.  `none` models a raised
`ValueError`. -/
def pyIntHex (l : List Char) : Option Int :=
  let t := ((l.dropWhile isPyWs).reverse.dropWhile isPyWs).reverse
  match t with
  | [] => none
  | c :: rest =>
    if c = '+' then (parseBody rest).map Int.ofNat
    else if c = '-' then (parseBody rest).map (fun n => -(n : Int))
    else (parseBody t).map Int.ofNat

/-- Python `str.strip('#')`: remove `'#'` characters from both ends. -/
def pyStrip (l : List Char) : List Char :=
  ((l.dropWhile (· == '#')).reverse.dropWhile (· == '#')).reverse

/-- Python slice `l[a:b]` (for `a ≤ b`): truncating, never raising. -/
def pySlice (l : List Char) (a b : Nat) : List Char :=
  (l.drop a).take (b - a)

/-- The `Color.hex_to_rgb`: strip `'#'` from both ends, parse the 2-character
slices at offsets 0, 2, 4 as base-16 integers.  `none` models the
`ValueError` escaping when a slice does not parse. -/
def hex_to_rgb (color : String) : Option (Int × Int × Int) :=
  let hex_value := pyStrip color.data
  match pyIntHex (pySlice hex_value 0 2), pyIntHex (pySlice hex_value 2 4),
      pyIntHex (pySlice hex_value 4 6) with
  | some r, some g, some b => some (r, g, b)
  | _, _, _ => none

/-- The lowercase hexadecimal digit characters, as `'{:02x}'.format`
writes them. -/
def hexDigitChar : Nat → Char
  | 0 => '0' | 1 => '1' | 2 => '2' | 3 => '3' | 4 => '4'
  | 5 => '5' | 6 => '6' | 7 => '7' | 8 => '8' | 9 => '9'
  | 10 => 'a' | 11 => 'b' | 12 => 'c' | 13 => 'd' | 14 => 'e'
  | _ => 'f'

/-- Base-16 digit expansion of a natural number, most significant first
(fuel-structured; `natHexFuel (n+1) n` computes it for every `n`). -/
def natHexFuel : Nat → Nat → List Char
  | 0, _ => []
  | fuel + 1, n =>
    if n < 16 then [hexDigitChar n]
    else natHexFuel fuel (n / 16) ++ [hexDigitChar (n % 16)]

/-- Lowercase hexadecimal digits of a natural number. -/
def natHexDigits (n : Nat) : List Char :=
  natHexFuel (n + 1) n

/-- Left-pad a digit list with `'0'` to a minimum width. -/
def zeroPad (w : Nat) (l : List Char) : List Char :=
  List.replicate (w - l.length) '0' ++ l

/-- Python `'{:02x}'.format(i)`: lowercase hex, total width (sign
included) padded to 2 with zeros between sign and digits. -/
def fmt02x (i : Int) : List Char :=
  if 0 ≤ i then zeroPad 2 (natHexDigits i.toNat)
  else '-' :: zeroPad 1 (natHexDigits (-i).toNat)

/-- Python `int(x)` on a float: truncation toward zero. -/
def pyInt (q : ℚ) : Int :=
  if 0 ≤ q then ⌊q⌋ else -⌊-q⌋

/-- The `Color.rgb_to_hex`: truncate each channel with `int(...)` and format
as `'#'` followed by three 2-zero-padded lowercase hex fields. -/
def rgb_to_hex (r g b : ℚ) : String :=
  String.mk ('#' :: (fmt02x (pyInt r) ++ fmt02x (pyInt g) ++ fmt02x (pyInt b)))

/-- Python `x % 1.0` on the exact value `x`: the fractional part, always
in `[0, 1)` (the sign of a Python `%` result follows the divisor). -/
def pyMod1 (x : ℚ) : ℚ :=
  x - ⌊x⌋

/-- The `Color.rgb_to_hsl`.  The channels are normalised by 255, lightness is
the mid-range; an achromatic input returns `(0, 0, l)` at once; otherwise
saturation and hue are computed piecewise and the hue is wrapped by
`% 1.0`. -/
def rgb_to_hsl (r g b : ℚ) : ℚ × ℚ × ℚ :=
  let r' := r / 255; let g' := g / 255; let b' := b / 255
  let max_color := max r' (max g' b')
  let min_color := min r' (min g' b')
  let sum_color := max_color + min_color
  let range_color := max_color - min_color
  let l := sum_color / 2
  if min_color = max_color then (0, 0, l)
  else
    let s := if l ≤ 0.5 then range_color / sum_color
             else range_color / (2 - sum_color)
    let rc := (max_color - r') / range_color
    let gc := (max_color - g') / range_color
    let bc := (max_color - b') / range_color
    let h := if r' = max_color then bc - gc
             else if g' = max_color then 2 + rc - bc
             else 4 + gc - rc
    (pyMod1 (h / 6), s, l)

/-- The `Color.ONE_THIRD` (`1.0/3.0`). -/
def ONE_THIRD : ℚ := 1.0 / 3.0

/-- The `Color.ONE_SIXTH` (`1.0/6.0`). -/
def ONE_SIXTH : ℚ := 1.0 / 6.0

/-- The `Color.TWO_THIRD` (`2.0/3.0`). -/
def TWO_THIRD : ℚ := 2.0 / 3.0

/-- The `Color._v`: the piecewise hue-to-channel reconstruction; the hue is
first wrapped by `% 1.0`. -/
def _v (m1 m2 hue : ℚ) : ℚ :=
  let hue := pyMod1 hue
  if hue < ONE_SIXTH then m1 + (m2 - m1) * hue * 6.0
  else if hue < 0.5 then m2
  else if hue < TWO_THIRD then m1 + (m2 - m1) * (TWO_THIRD - hue) * 6.0
  else m1

/-- Python `round(x)` on the exact value `x`: nearest integer, halves to
the even neighbour. -/
def pyRound (q : ℚ) : Int :=
  if q - ⌊q⌋ < 1 / 2 then ⌊q⌋
  else if 1 / 2 < q - ⌊q⌋ then ⌊q⌋ + 1
  else if ⌊q⌋ % 2 = 0 then ⌊q⌋ else ⌊q⌋ + 1

/-- The `m2` intermediate of `Color.hsl_to_rgb`. -/
def hsl_m2 (s l : ℚ) : ℚ :=
  if l ≤ 0.5 then l * (1.0 + s) else l + s - l * s

/-- The `m1` intermediate of `Color.hsl_to_rgb`. -/
def hsl_m1 (s l : ℚ) : ℚ :=
  2.0 * l - hsl_m2 s l

/-- The `Color.hsl_to_rgb`.  Note the achromatic branch returns the raw float
triple `(l, l, l)` unscaled, while the chromatic branch returns integers
`round(_v(...) * 255)`; the mixed result type is modelled by casting the
integers into `ℚ`. -/
def hsl_to_rgb (h s l : ℚ) : ℚ × ℚ × ℚ :=
  if s = 0 then (l, l, l)
  else
    (((pyRound (_v (hsl_m1 s l) (hsl_m2 s l) (h + ONE_THIRD) * 255) : ℤ) : ℚ),
     ((pyRound (_v (hsl_m1 s l) (hsl_m2 s l) h * 255) : ℤ) : ℚ),
     ((pyRound (_v (hsl_m1 s l) (hsl_m2 s l) (h - ONE_THIRD) * 255) : ℤ) : ℚ))

/-- The `Color.hex_to_hsl`: `hex_to_rgb` then `rgb_to_hsl`. -/
def hex_to_hsl (color : String) : Option (ℚ × ℚ × ℚ) :=
  (hex_to_rgb color).map fun rgb =>
    rgb_to_hsl (rgb.1 : ℚ) (rgb.2.1 : ℚ) (rgb.2.2 : ℚ)

/-- The `Color.hsl_to_hex`: `hsl_to_rgb` then `rgb_to_hex`. -/
def hsl_to_hex (h s l : ℚ) : String :=
  let rgb := hsl_to_rgb h s l
  rgb_to_hex rgb.1 rgb.2.1 rgb.2.2

/-- The `Color._check_range`: hard clamp into `[0, 1]`. -/
def check_range (channel : ℚ) : ℚ :=
  if channel < 0 then 0 else if 1 < channel then 1 else channel

/-- The `Color.hue`: shift the hue fraction on the `* 3.6 … / 3.6` scale and
clamp. -/
def hue (color : String) (shift : ℤ) : Option String :=
  (hex_to_hsl color).map fun hsl =>
    let h := hsl.1; let s := hsl.2.1; let l := hsl.2.2
    let h := if shift < 0 then
        check_range ((h * 3.6 - (shift.natAbs : ℚ) / 100) / 3.6)
      else
        check_range ((h * 3.6 + (shift : ℚ) / 100) / 3.6)
    hsl_to_hex h s l

/-- The `Color.saturation`: shift the saturation fraction by `shift / 100`
and clamp. -/
def saturation (color : String) (shift : ℤ) : Option String :=
  (hex_to_hsl color).map fun hsl =>
    let h := hsl.1; let s := hsl.2.1; let l := hsl.2.2
    let s := if shift < 0 then check_range (s - (shift.natAbs : ℚ) / 100)
      else check_range (s + (shift : ℚ) / 100)
    hsl_to_hex h s l

/-- The `Color.lightness`: shift the lightness fraction by `shift / 100` and
clamp. -/
def lightness (color : String) (shift : ℤ) : Option String :=
  (hex_to_hsl color).map fun hsl =>
    let h := hsl.1; let s := hsl.2.1; let l := hsl.2.2
    let l := if shift < 0 then check_range (l - (shift.natAbs : ℚ) / 100)
      else check_range (l + (shift : ℚ) / 100)
    hsl_to_hex h s l

/-!
## Specification-side definitions

These are written from the specification's words, to be compared with the
definitions above (they are never used to state what the code does). -/

/-- From the spec: the four-branch piecewise hue-to-channel reconstruction
with breakpoints `1/6`, `1/2`, `2/3`, on the hue wrapped into `[0,1)`. -/
def componentSpec (m1 m2 hue : ℚ) : ℚ :=
  let h := pyMod1 hue
  if h < 1 / 6 then m1 + (m2 - m1) * h * 6
  else if h < 1 / 2 then m2
  else if h < 2 / 3 then m1 + (m2 - m1) * (2 / 3 - h) * 6
  else m1

/-- From the spec: a hex-digit character (either case). -/
def isHexDigit (c : Char) : Bool :=
  (hexVal? c).isSome

/-- From the spec: a valid color string — exactly 6 hex digits after an
optional single leading `'#'`. -/
def isValidHex6 (x : String) : Bool :=
  let core := if x.data.head? = some '#' then x.data.tail else x.data
  core.length = 6 && core.all isHexDigit

/-- From the spec: a well-formed output — `'#'` followed by exactly 6
lowercase hex digits. -/
def isLowerHexDigit (c : Char) : Bool :=
  (48 ≤ c.toNat && c.toNat ≤ 57) || (97 ≤ c.toNat && c.toNat ≤ 102)

/-- A `'#'`-prefixed 6-digit lowercase hex string. -/
def wellFormedHex (s : String) : Bool :=
  match s.data with
  | '#' :: rest => rest.length = 6 && rest.all isLowerHexDigit
  | _ => false

/-- ASCII lowercasing of one character, for the spec's "case-normalised"
round trip. -/
def asciiToLower (c : Char) : Char :=
  if 65 ≤ c.toNat ∧ c.toNat ≤ 90 then Char.ofNat (c.toNat + 32) else c

example : rgb_to_hsl 180 190 254 = (143/222, 37/38, 217/255) := by
  norm_num [rgb_to_hsl, pyMod1]

/-!
## Character-level lemmas -/

lemma char_eq_of_toNat {c : Char} {n : Nat} (h : c.toNat = n) :
    c = Char.ofNat n := by
  subst h
  exact (Char.ofNat_toNat c).symm

lemma ofNat_digit_range {n : Nat} (h1 : 48 ≤ n) (h2 : n ≤ 57) :
    Char.ofNat n = hexDigitChar (n - 48) := by
  interval_cases n <;> decide

lemma ofNat_lower_range {n : Nat} (h1 : 97 ≤ n) (h2 : n ≤ 102) :
    Char.ofNat n = hexDigitChar (n - 87) := by
  interval_cases n <;> decide

/-- Every character with a hex value is a lowercase hex digit character or
an uppercase letter `A`-`F`, and its value is below 16. -/
lemma hexVal_shape {c : Char} {v : Nat} (h : hexVal? c = some v) :
    v < 16 ∧ (c = hexDigitChar v ∨ (10 ≤ v ∧ v ≤ 15 ∧ c = Char.ofNat (v + 55))) := by
  simp only [hexVal?] at h
  split_ifs at h with h1 h2 h3 <;> simp only [Option.some.injEq] at h <;> subst h
  · exact ⟨by omega, Or.inl
      ((Char.ofNat_toNat c).symm.trans (ofNat_digit_range h1.1 h1.2))⟩
  · exact ⟨by omega, Or.inl
      ((Char.ofNat_toNat c).symm.trans (ofNat_lower_range h2.1 h2.2))⟩
  · exact ⟨by omega, Or.inr ⟨by omega, by omega,
      char_eq_of_toNat (by omega)⟩⟩

/-- The facts about a hex-digit character the parsing and formatting
proofs need. -/
lemma hexVal_props {c : Char} {v : Nat} (h : hexVal? c = some v) :
    v < 16 ∧ isPyWs c = false ∧ (c == '#') = false ∧ c ≠ '+' ∧ c ≠ '-' ∧
      c ≠ '_' ∧ c ≠ 'x' ∧ c ≠ 'X' ∧ asciiToLower c = hexDigitChar v ∧
      isLowerHexDigit (hexDigitChar v) = true := by
  obtain ⟨hv, hc⟩ := hexVal_shape h
  rcases hc with rfl | ⟨h10, h15, rfl⟩
  · exact ⟨hv, by interval_cases v <;> decide⟩
  · exact ⟨hv, by interval_cases v <;> decide⟩

/-!
## Parsing lemmas -/

/-- The `int(s, 16)` on a two-hex-digit string. -/
lemma pyIntHex_pair {a b : Char} {va vb : Nat}
    (ha : hexVal? a = some va) (hb : hexVal? b = some vb) :
    pyIntHex [a, b] = some ((16 * va + vb : ℕ) : ℤ) := by
  obtain ⟨-, haw, -, hap, ham, hau, -, -, -, -⟩ := hexVal_props ha
  obtain ⟨-, hbw, -, -, -, hbu, hbx, hbX, -, -⟩ := hexVal_props hb
  simp [pyIntHex, parseBody, hexRunStart, hexRun, List.dropWhile,
    haw, hbw, ha, hb, hap, ham, hau, hbu, hbx, hbX, Int.ofNat_eq_coe]

/-- The `int(s, 16)` on a one-hex-digit string. -/
lemma pyIntHex_single {a : Char} {va : Nat} (ha : hexVal? a = some va) :
    pyIntHex [a] = some ((va : ℕ) : ℤ) := by
  obtain ⟨-, haw, -, hap, ham, hau, -, -, -, -⟩ := hexVal_props ha
  simp [pyIntHex, parseBody, hexRunStart, hexRun, List.dropWhile,
    haw, ha, hap, ham, hau, Int.ofNat_eq_coe]

/-- The `strip('#')` leaves a string without `'#'` unchanged. -/
lemma pyStrip_of_no_hash {l : List Char}
    (h : ∀ c ∈ l, (c == '#') = false) : pyStrip l = l := by
  have h1 : l.dropWhile (· == '#') = l := by
    cases l with
    | nil => rfl
    | cons a t =>
      rw [List.dropWhile_cons, h a (List.mem_cons_self a t)]
      simp
  have h2 : l.reverse.dropWhile (· == '#') = l.reverse := by
    cases hr : l.reverse with
    | nil => rfl
    | cons a t =>
      have haM : a ∈ l := by
        rw [← List.mem_reverse, hr]
        exact List.mem_cons_self a t
      rw [List.dropWhile_cons, h a haM]
      simp
  simp [pyStrip, h1, h2]

/-- The `strip('#')` ignores a leading `'#'`. -/
lemma pyStrip_cons_hash (l : List Char) : pyStrip ('#' :: l) = pyStrip l := by
  simp [pyStrip, List.dropWhile_cons]

/-- The `strip('#')` ignores a trailing `'#'`. -/
lemma pyStrip_append_hash (l : List Char) :
    pyStrip (l ++ ['#']) = pyStrip l := by
  induction l with
  | nil => decide
  | cons a t ih =>
    by_cases ha : a = '#'
    · subst ha
      rw [List.cons_append, pyStrip_cons_hash, pyStrip_cons_hash, ih]
    · have ha' : (a == '#') = false := by simp [ha]
      have hrev : (t ++ ['#']).reverse ++ [a] = '#' :: (t.reverse ++ [a]) := by
        simp
      simp [pyStrip, List.dropWhile_cons, ha', hrev, List.dropWhile]


/-- The `hex_to_rgb` on an explicit six-hex-digit list, bare or
`'#'`-prefixed: the three channels are the byte values of the digit
pairs. -/
lemma hex_to_rgb_six {a b c d e f : Char} {va vb vc vd ve vf : Nat}
    (ha : hexVal? a = some va) (hb : hexVal? b = some vb)
    (hc : hexVal? c = some vc) (hd : hexVal? d = some vd)
    (he : hexVal? e = some ve) (hf : hexVal? f = some vf) :
    hex_to_rgb (String.mk [a, b, c, d, e, f]) =
      some (((16 * va + vb : ℕ) : ℤ), ((16 * vc + vd : ℕ) : ℤ),
        ((16 * ve + vf : ℕ) : ℤ)) ∧
    hex_to_rgb (String.mk ('#' :: [a, b, c, d, e, f])) =
      some (((16 * va + vb : ℕ) : ℤ), ((16 * vc + vd : ℕ) : ℤ),
        ((16 * ve + vf : ℕ) : ℤ)) := by
  have hnh : ∀ x ∈ [a, b, c, d, e, f], (x == '#') = false := by
    intro x hx
    simp only [List.mem_cons, List.not_mem_nil, or_false] at hx
    rcases hx with rfl | rfl | rfl | rfl | rfl | rfl
    · exact (hexVal_props ha).2.2.1
    · exact (hexVal_props hb).2.2.1
    · exact (hexVal_props hc).2.2.1
    · exact (hexVal_props hd).2.2.1
    · exact (hexVal_props he).2.2.1
    · exact (hexVal_props hf).2.2.1
  have hstrip : pyStrip [a, b, c, d, e, f] = [a, b, c, d, e, f] :=
    pyStrip_of_no_hash hnh
  have h1 : pySlice [a, b, c, d, e, f] 0 2 = [a, b] := by simp [pySlice]
  have h2 : pySlice [a, b, c, d, e, f] 2 4 = [c, d] := by
    simp [pySlice, List.take]
  have h3 : pySlice [a, b, c, d, e, f] 4 6 = [e, f] := by
    simp [pySlice, List.take]
  constructor
  · simp only [hex_to_rgb, String.mk, hstrip, h1, h2, h3,
      pyIntHex_pair ha hb, pyIntHex_pair hc hd, pyIntHex_pair he hf]
  · simp only [hex_to_rgb, String.mk, pyStrip_cons_hash, hstrip, h1, h2, h3,
      pyIntHex_pair ha hb, pyIntHex_pair hc hd, pyIntHex_pair he hf]

/-!
## Formatting lemmas -/

lemma natHexFuel_small {fuel n : Nat} (hf : 1 ≤ fuel) (hn : n < 16) :
    natHexFuel fuel n = [hexDigitChar n] := by
  cases fuel with
  | zero => omega
  | succ k => simp [natHexFuel, hn]

/-- The hex expansion of a byte value `16 * v + w` written from its two
digit values. -/
lemma natHexDigits_byte {v w : Nat} (hv : v < 16) (hw : w < 16) :
    zeroPad 2 (natHexDigits (16 * v + w)) =
      [hexDigitChar v, hexDigitChar w] := by
  have hpad1 : ∀ x : Char, zeroPad 2 [x] = ['0', x] := fun x => rfl
  by_cases hv0 : v = 0
  · subst hv0
    have hw' : 16 * 0 + w = w := by omega
    rw [natHexDigits, hw', natHexFuel_small (by omega) hw, hpad1]
    rfl
  · have h16 : ¬(16 * v + w < 16) := by omega
    have hdiv : (16 * v + w) / 16 = v := by omega
    have hmod : (16 * v + w) % 16 = w := by omega
    rw [natHexDigits]
    have hfuel : 16 * v + w + 1 = (16 * v + w) + 1 := rfl
    rw [show natHexFuel (16 * v + w + 1) (16 * v + w) =
        natHexFuel (16 * v + w) ((16 * v + w) / 16) ++
          [hexDigitChar ((16 * v + w) % 16)] by
      simp [natHexFuel, h16]]
    rw [hdiv, hmod, natHexFuel_small (by omega) hv]
    simp [zeroPad]

/-- The `'{:02x}'` of a byte value. -/
lemma fmt02x_byte {v w : Nat} (hv : v < 16) (hw : w < 16) :
    fmt02x ((16 * v + w : ℕ) : ℤ) = [hexDigitChar v, hexDigitChar w] := by
  rw [fmt02x, if_pos (by positivity)]
  rw [Int.toNat_natCast]
  exact natHexDigits_byte hv hw

/-- The `int(...)` of a rational that is a nonnegative integer. -/
lemma pyInt_natCast (n : ℕ) : pyInt ((n : ℕ) : ℚ) = (n : ℤ) := by
  rw [pyInt, if_pos (by positivity)]
  exact_mod_cast Int.floor_natCast n

/-- The `rgb_to_hex` on three byte values given by digit pairs. -/
lemma rgb_to_hex_bytes {v1 w1 v2 w2 v3 w3 : Nat}
    (h1 : v1 < 16) (h2 : w1 < 16) (h3 : v2 < 16) (h4 : w2 < 16)
    (h5 : v3 < 16) (h6 : w3 < 16) :
    rgb_to_hex ((16 * v1 + w1 : ℕ) : ℚ) ((16 * v2 + w2 : ℕ) : ℚ)
        ((16 * v3 + w3 : ℕ) : ℚ) =
      String.mk ['#', hexDigitChar v1, hexDigitChar w1, hexDigitChar v2,
        hexDigitChar w2, hexDigitChar v3, hexDigitChar w3] := by
  rw [rgb_to_hex, pyInt_natCast, pyInt_natCast, pyInt_natCast,
    fmt02x_byte h1 h2, fmt02x_byte h3 h4, fmt02x_byte h5 h6]
  rfl

/-!
## Numeric bounds lemmas -/

lemma pyMod1_nonneg (x : ℚ) : 0 ≤ pyMod1 x :=
  Int.fract_nonneg x

lemma pyMod1_lt_one (x : ℚ) : pyMod1 x < 1 :=
  Int.fract_lt_one x

lemma check_range_mem (x : ℚ) : 0 ≤ check_range x ∧ check_range x ≤ 1 := by
  unfold check_range
  split_ifs <;> constructor <;> linarith

/-- Rounding keeps a value of `[0, 255]` in `[0, 255]`. -/
lemma pyRound_byte {q : ℚ} (h0 : 0 ≤ q) (h255 : q ≤ 255) :
    0 ≤ pyRound q ∧ pyRound q ≤ 255 := by
  have hfl : (0 : ℤ) ≤ ⌊q⌋ := Int.floor_nonneg.mpr h0
  have hle : (⌊q⌋ : ℚ) ≤ q := Int.floor_le q
  have h255' : ⌊q⌋ ≤ 255 := by
    have h : (⌊q⌋ : ℚ) ≤ 255 := le_trans hle h255
    exact_mod_cast h
  have key : (1 / 2 : ℚ) ≤ q - ⌊q⌋ → ⌊q⌋ + 1 ≤ 255 := by
    intro hhalf
    have h1 : (⌊q⌋ : ℚ) < 255 := by linarith
    have h2 : ⌊q⌋ < 255 := by exact_mod_cast h1
    omega
  unfold pyRound
  split_ifs with hA hB hC
  · exact ⟨hfl, h255'⟩
  · exact ⟨by omega, key (le_of_not_lt hA)⟩
  · exact ⟨hfl, h255'⟩
  · exact ⟨by omega, key (le_of_not_lt hA)⟩

/-- The reconstruction `_v` stays between `m1` and `m2`. -/
lemma v_between {m1 m2 : ℚ} (h : m1 ≤ m2) (hue : ℚ) :
    m1 ≤ _v m1 m2 hue ∧ _v m1 m2 hue ≤ m2 := by
  have h0 : 0 ≤ pyMod1 hue := pyMod1_nonneg hue
  have h1 : pyMod1 hue < 1 := pyMod1_lt_one hue
  have h6 : ONE_SIXTH = 1 / 6 := by norm_num [ONE_SIXTH]
  have h23 : TWO_THIRD = 2 / 3 := by norm_num [TWO_THIRD]
  simp only [_v, h6, h23]
  set t := pyMod1 hue with ht
  split_ifs with hA hB hC
  · constructor <;> nlinarith
  · exact ⟨h, le_refl m2⟩
  · have hB' : (1 / 2 : ℚ) ≤ t := by
      have := not_lt.mp hB
      linarith [show (0.5 : ℚ) = 1 / 2 by norm_num]
    constructor <;> nlinarith
  · exact ⟨le_refl m1, h⟩

/-- The intermediates of `hsl_to_rgb` satisfy `0 ≤ m1 ≤ m2 ≤ 1`. -/
lemma m_chain {s l : ℚ} (hs0 : 0 < s) (hs1 : s ≤ 1)
    (hl0 : 0 ≤ l) (hl1 : l ≤ 1) :
    0 ≤ hsl_m1 s l ∧ hsl_m1 s l ≤ hsl_m2 s l ∧ hsl_m2 s l ≤ 1 := by
  have h05 : (0.5 : ℚ) = 1 / 2 := by norm_num
  unfold hsl_m1 hsl_m2
  split_ifs with hl
  · rw [h05] at hl
    refine ⟨?_, ?_, ?_⟩ <;> nlinarith
  · rw [h05] at hl
    push_neg at hl
    refine ⟨?_, ?_, ?_⟩ <;> nlinarith

/-- Bounds of `rgb_to_hsl` on in-range channels: hue in `[0,1)`,
saturation and lightness in `[0,1]`; when the channels are not all equal,
saturation is strictly positive and lightness strictly inside `(0,1)`. -/
lemma rgb_to_hsl_bounds {r g b : ℚ}
    (h0r : 0 ≤ r) (hr : r ≤ 255) (h0g : 0 ≤ g) (hg : g ≤ 255)
    (h0b : 0 ≤ b) (hb : b ≤ 255) :
    0 ≤ (rgb_to_hsl r g b).1 ∧ (rgb_to_hsl r g b).1 < 1 ∧
    0 ≤ (rgb_to_hsl r g b).2.1 ∧ (rgb_to_hsl r g b).2.1 ≤ 1 ∧
    0 ≤ (rgb_to_hsl r g b).2.2 ∧ (rgb_to_hsl r g b).2.2 ≤ 1 ∧
    (¬(r = g ∧ g = b) →
      0 < (rgb_to_hsl r g b).2.1 ∧ 0 < (rgb_to_hsl r g b).2.2 ∧
        (rgb_to_hsl r g b).2.2 < 1) := by
  have hM1 : max (r / 255) (max (g / 255) (b / 255)) ≤ 1 :=
    max_le (by linarith) (max_le (by linarith) (by linarith))
  have hm0 : 0 ≤ min (r / 255) (min (g / 255) (b / 255)) :=
    le_min (by linarith) (le_min (by linarith) (by linarith))
  have hrle : r / 255 ≤ max (r / 255) (max (g / 255) (b / 255)) :=
    le_max_left _ _
  have hgle : g / 255 ≤ max (r / 255) (max (g / 255) (b / 255)) :=
    le_trans (le_max_left _ _) (le_max_right _ _)
  have hble : b / 255 ≤ max (r / 255) (max (g / 255) (b / 255)) :=
    le_trans (le_max_right _ _) (le_max_right _ _)
  have hrge : min (r / 255) (min (g / 255) (b / 255)) ≤ r / 255 :=
    min_le_left _ _
  have hgge : min (r / 255) (min (g / 255) (b / 255)) ≤ g / 255 :=
    le_trans (min_le_right _ _) (min_le_left _ _)
  have hbge : min (r / 255) (min (g / 255) (b / 255)) ≤ b / 255 :=
    le_trans (min_le_right _ _) (min_le_right _ _)
  by_cases heq : min (r / 255) (min (g / 255) (b / 255)) =
      max (r / 255) (max (g / 255) (b / 255))
  · have hres : rgb_to_hsl r g b =
        (0, 0, (max (r / 255) (max (g / 255) (b / 255)) +
          min (r / 255) (min (g / 255) (b / 255))) / 2) := by
      simp only [rgb_to_hsl]
      rw [if_pos heq]
    rw [hres]
    have hall : r = g ∧ g = b := by
      constructor <;> linarith
    refine ⟨le_refl 0, by norm_num, le_refl 0, by norm_num, by linarith,
      by linarith, fun hne => absurd hall hne⟩
  · have hlt : min (r / 255) (min (g / 255) (b / 255)) <
        max (r / 255) (max (g / 255) (b / 255)) :=
      lt_of_le_of_ne (le_trans hrge hrle) heq
    have hMpos : 0 < max (r / 255) (max (g / 255) (b / 255)) :=
      lt_of_le_of_lt hm0 hlt
    have hsum_pos : 0 < max (r / 255) (max (g / 255) (b / 255)) +
        min (r / 255) (min (g / 255) (b / 255)) := by linarith
    have hsum_lt : max (r / 255) (max (g / 255) (b / 255)) +
        min (r / 255) (min (g / 255) (b / 255)) < 2 := by linarith
    have hres : rgb_to_hsl r g b = (pyMod1 ((
        if r / 255 = max (r / 255) (max (g / 255) (b / 255)) then
          (max (r / 255) (max (g / 255) (b / 255)) - b / 255) /
              (max (r / 255) (max (g / 255) (b / 255)) -
                min (r / 255) (min (g / 255) (b / 255))) -
            (max (r / 255) (max (g / 255) (b / 255)) - g / 255) /
              (max (r / 255) (max (g / 255) (b / 255)) -
                min (r / 255) (min (g / 255) (b / 255)))
        else if g / 255 = max (r / 255) (max (g / 255) (b / 255)) then
          2 + (max (r / 255) (max (g / 255) (b / 255)) - r / 255) /
              (max (r / 255) (max (g / 255) (b / 255)) -
                min (r / 255) (min (g / 255) (b / 255))) -
            (max (r / 255) (max (g / 255) (b / 255)) - b / 255) /
              (max (r / 255) (max (g / 255) (b / 255)) -
                min (r / 255) (min (g / 255) (b / 255)))
        else
          4 + (max (r / 255) (max (g / 255) (b / 255)) - g / 255) /
              (max (r / 255) (max (g / 255) (b / 255)) -
                min (r / 255) (min (g / 255) (b / 255))) -
            (max (r / 255) (max (g / 255) (b / 255)) - r / 255) /
              (max (r / 255) (max (g / 255) (b / 255)) -
                min (r / 255) (min (g / 255) (b / 255)))) / 6),
        (if (max (r / 255) (max (g / 255) (b / 255)) +
              min (r / 255) (min (g / 255) (b / 255))) / 2 ≤ 0.5 then
          (max (r / 255) (max (g / 255) (b / 255)) -
              min (r / 255) (min (g / 255) (b / 255))) /
            (max (r / 255) (max (g / 255) (b / 255)) +
              min (r / 255) (min (g / 255) (b / 255)))
        else
          (max (r / 255) (max (g / 255) (b / 255)) -
              min (r / 255) (min (g / 255) (b / 255))) /
            (2 - (max (r / 255) (max (g / 255) (b / 255)) +
              min (r / 255) (min (g / 255) (b / 255))))),
        (max (r / 255) (max (g / 255) (b / 255)) +
          min (r / 255) (min (g / 255) (b / 255))) / 2) := by
      simp only [rgb_to_hsl]
      rw [if_neg heq]
    rw [hres]
    have hs_bounds : ∀ x ∈ ({(max (r / 255) (max (g / 255) (b / 255)) -
        min (r / 255) (min (g / 255) (b / 255))) /
          (max (r / 255) (max (g / 255) (b / 255)) +
            min (r / 255) (min (g / 255) (b / 255))),
        (max (r / 255) (max (g / 255) (b / 255)) -
            min (r / 255) (min (g / 255) (b / 255))) /
          (2 - (max (r / 255) (max (g / 255) (b / 255)) +
            min (r / 255) (min (g / 255) (b / 255))))} : Set ℚ),
        0 < x ∧ x ≤ 1 := by
      intro x hx
      rcases hx with rfl | rfl
      · exact ⟨div_pos (by linarith) hsum_pos,
          (div_le_one hsum_pos).mpr (by linarith)⟩
      · exact ⟨div_pos (by linarith) (by linarith),
          (div_le_one (by linarith)).mpr (by linarith)⟩
    have hs1 := hs_bounds _ (Set.mem_insert _ _)
    have hs2 := hs_bounds _ (Set.mem_insert_of_mem _ rfl)
    have hsif : 0 < (if (max (r / 255) (max (g / 255) (b / 255)) +
          min (r / 255) (min (g / 255) (b / 255))) / 2 ≤ 0.5 then
          (max (r / 255) (max (g / 255) (b / 255)) -
              min (r / 255) (min (g / 255) (b / 255))) /
            (max (r / 255) (max (g / 255) (b / 255)) +
              min (r / 255) (min (g / 255) (b / 255)))
        else
          (max (r / 255) (max (g / 255) (b / 255)) -
              min (r / 255) (min (g / 255) (b / 255))) /
            (2 - (max (r / 255) (max (g / 255) (b / 255)) +
              min (r / 255) (min (g / 255) (b / 255))))) ∧
        (if (max (r / 255) (max (g / 255) (b / 255)) +
          min (r / 255) (min (g / 255) (b / 255))) / 2 ≤ 0.5 then
          (max (r / 255) (max (g / 255) (b / 255)) -
              min (r / 255) (min (g / 255) (b / 255))) /
            (max (r / 255) (max (g / 255) (b / 255)) +
              min (r / 255) (min (g / 255) (b / 255)))
        else
          (max (r / 255) (max (g / 255) (b / 255)) -
              min (r / 255) (min (g / 255) (b / 255))) /
            (2 - (max (r / 255) (max (g / 255) (b / 255)) +
              min (r / 255) (min (g / 255) (b / 255))))) ≤ 1 := by
      split_ifs
      · exact hs1
      · exact hs2
    exact ⟨pyMod1_nonneg _, pyMod1_lt_one _, le_of_lt hsif.1, hsif.2,
      by linarith, by linarith,
      fun _ => ⟨hsif.1, by linarith, by linarith⟩⟩

/-- In the chromatic branch the three output channels of `hsl_to_rgb` are
integers in `[0, 255]`. -/
lemma hsl_to_rgb_chromatic {h s l : ℚ} (hs0 : 0 < s) (hs1 : s ≤ 1)
    (hl0 : 0 ≤ l) (hl1 : l ≤ 1) :
    ∃ x y z : ℤ, hsl_to_rgb h s l = ((x : ℚ), (y : ℚ), (z : ℚ)) ∧
      0 ≤ x ∧ x ≤ 255 ∧ 0 ≤ y ∧ y ≤ 255 ∧ 0 ≤ z ∧ z ≤ 255 := by
  obtain ⟨hm1, hm12, hm2⟩ := m_chain hs0 hs1 hl0 hl1
  have key : ∀ hu : ℚ,
      0 ≤ pyRound (_v (hsl_m1 s l) (hsl_m2 s l) hu * 255) ∧
        pyRound (_v (hsl_m1 s l) (hsl_m2 s l) hu * 255) ≤ 255 := by
    intro hu
    obtain ⟨hv1, hv2⟩ := v_between hm12 hu
    have hv0 : 0 ≤ _v (hsl_m1 s l) (hsl_m2 s l) hu := le_trans hm1 hv1
    have hv1' : _v (hsl_m1 s l) (hsl_m2 s l) hu ≤ 1 := le_trans hv2 hm2
    exact pyRound_byte (by nlinarith) (by nlinarith)
  have hne : ¬(s = 0) := ne_of_gt hs0
  refine ⟨pyRound (_v (hsl_m1 s l) (hsl_m2 s l) (h + ONE_THIRD) * 255),
    pyRound (_v (hsl_m1 s l) (hsl_m2 s l) h * 255),
    pyRound (_v (hsl_m1 s l) (hsl_m2 s l) (h - ONE_THIRD) * 255),
    ?_, (key _).1, (key _).2, (key _).1, (key _).2, (key _).1, (key _).2⟩
  simp only [hsl_to_rgb]
  rw [if_neg hne]

/-!
## Well-formedness of the produced strings -/

lemma hexDigitChar_lower {v : Nat} (h : v < 16) :
    isLowerHexDigit (hexDigitChar v) = true := by
  interval_cases v <;> decide

/-- The `'{:02x}'` of an integer in `[0, 255]` is two lowercase hex digits. -/
lemma fmt02x_wf {k : ℤ} (h0 : 0 ≤ k) (h255 : k ≤ 255) :
    ∃ c1 c2, fmt02x k = [c1, c2] ∧ isLowerHexDigit c1 = true ∧
      isLowerHexDigit c2 = true := by
  obtain ⟨n, rfl⟩ : ∃ n : ℕ, k = (n : ℤ) :=
    ⟨k.toNat, (Int.toNat_of_nonneg h0).symm⟩
  have hn : n ≤ 255 := by exact_mod_cast h255
  refine ⟨hexDigitChar (n / 16), hexDigitChar (n % 16), ?_,
    hexDigitChar_lower (by omega), hexDigitChar_lower (by omega)⟩
  rw [show ((n : ℕ) : ℤ) = ((16 * (n / 16) + n % 16 : ℕ) : ℤ) from by omega]
  exact fmt02x_byte (by omega) (by omega)

/-- The `int(...)` keeps a rational of `[0, 255]` in `[0, 255]`. -/
lemma pyInt_byte {q : ℚ} (h0 : 0 ≤ q) (h255 : q ≤ 255) :
    0 ≤ pyInt q ∧ pyInt q ≤ 255 := by
  rw [pyInt, if_pos h0]
  constructor
  · exact Int.floor_nonneg.mpr h0
  · have h : (⌊q⌋ : ℚ) ≤ 255 := le_trans (Int.floor_le q) h255
    exact_mod_cast h

/-- The `rgb_to_hex` of three rationals in `[0, 255]` is a well-formed
`'#'`-prefixed 6-digit lowercase hex string. -/
lemma rgb_to_hex_wf {x y z : ℚ} (h1 : 0 ≤ x) (h2 : x ≤ 255) (h3 : 0 ≤ y)
    (h4 : y ≤ 255) (h5 : 0 ≤ z) (h6 : z ≤ 255) :
    wellFormedHex (rgb_to_hex x y z) = true := by
  obtain ⟨hx0, hx1⟩ := pyInt_byte h1 h2
  obtain ⟨hy0, hy1⟩ := pyInt_byte h3 h4
  obtain ⟨hz0, hz1⟩ := pyInt_byte h5 h6
  obtain ⟨c1, c2, he1, hl1, hl2⟩ := fmt02x_wf hx0 hx1
  obtain ⟨c3, c4, he2, hl3, hl4⟩ := fmt02x_wf hy0 hy1
  obtain ⟨c5, c6, he3, hl5, hl6⟩ := fmt02x_wf hz0 hz1
  rw [rgb_to_hex, he1, he2, he3]
  simp [wellFormedHex, hl1, hl2, hl3, hl4, hl5, hl6]

/-- The `hsl_to_hex` with saturation and lightness in `[0, 1]` always yields
a well-formed hex string — through the chromatic branch when `s > 0`, and
through the achromatic float-triple branch when `s = 0` (where the raw
`l ∈ [0,1]` values are truncated by `rgb_to_hex`). -/
lemma hsl_to_hex_wf {h s l : ℚ} (hs0 : 0 ≤ s) (hs1 : s ≤ 1)
    (hl0 : 0 ≤ l) (hl1 : l ≤ 1) :
    wellFormedHex (hsl_to_hex h s l) = true := by
  rcases eq_or_lt_of_le hs0 with hz | hpos
  · have hres : hsl_to_rgb h s l = (l, l, l) := by
      simp only [hsl_to_rgb]
      rw [if_pos hz.symm]
    rw [hsl_to_hex, hres]
    exact rgb_to_hex_wf hl0 (by linarith) hl0 (by linarith) hl0 (by linarith)
  · obtain ⟨x, y, z, hres, hx0, hx1, hy0, hy1, hz0, hz1⟩ :=
      hsl_to_rgb_chromatic hpos hs1 hl0 hl1
    have hwf := @rgb_to_hex_wf (x : ℚ) (y : ℚ) (z : ℚ)
      (by exact_mod_cast hx0) (by exact_mod_cast hx1)
      (by exact_mod_cast hy0) (by exact_mod_cast hy1)
      (by exact_mod_cast hz0) (by exact_mod_cast hz1)
    rw [hsl_to_hex, hres]
    exact hwf

/-!
## Valid input decomposition -/

lemma list_length_six {l : List Char} (h : l.length = 6) :
    ∃ a b c d e f, l = [a, b, c, d, e, f] := by
  rcases l with - | ⟨a, l⟩
  · simp only [List.length_nil] at h; omega
  rcases l with - | ⟨b, l⟩
  · simp only [List.length_cons, List.length_nil] at h; omega
  rcases l with - | ⟨c, l⟩
  · simp only [List.length_cons, List.length_nil] at h; omega
  rcases l with - | ⟨d, l⟩
  · simp only [List.length_cons, List.length_nil] at h; omega
  rcases l with - | ⟨e, l⟩
  · simp only [List.length_cons, List.length_nil] at h; omega
  rcases l with - | ⟨f, l⟩
  · simp only [List.length_cons, List.length_nil] at h; omega
  rcases l with - | ⟨g, l⟩
  · exact ⟨a, b, c, d, e, f, rfl⟩
  · simp only [List.length_cons, List.length_nil] at h; omega

/-- A valid color string is six hex digits after an optional single
leading hash, and `hex_to_rgb` parses it into the three byte values of
its digit pairs. -/
lemma valid_parse {x : String} (h : isValidHex6 x = true) :
    ∃ (a b c d e f : Char) (va vb vc vd ve vf : Nat),
      hexVal? a = some va ∧ hexVal? b = some vb ∧ hexVal? c = some vc ∧
      hexVal? d = some vd ∧ hexVal? e = some ve ∧ hexVal? f = some vf ∧
      (x.data = [a, b, c, d, e, f] ∨ x.data = '#' :: [a, b, c, d, e, f]) ∧
      hex_to_rgb x = some (((16 * va + vb : ℕ) : ℤ),
        ((16 * vc + vd : ℕ) : ℤ), ((16 * ve + vf : ℕ) : ℤ)) := by
  obtain ⟨xd⟩ := x
  simp only [isValidHex6, Bool.and_eq_true, decide_eq_true_eq] at h
  split_ifs at h with hh
  · obtain ⟨hlen, hall⟩ := h
    rcases xd with - | ⟨c0, t⟩
    · simp at hh
    · simp only [List.head?_cons, Option.some.injEq] at hh
      subst hh
      simp only [List.tail_cons] at hlen hall
      obtain ⟨a, b, c, d, e, f, rfl⟩ := list_length_six hlen
      simp only [List.all_eq_true, List.mem_cons, List.not_mem_nil] at hall
      have ha := hall a (by simp)
      have hb := hall b (by simp)
      have hc := hall c (by simp)
      have hd := hall d (by simp)
      have he := hall e (by simp)
      have hf := hall f (by simp)
      simp only [isHexDigit, Option.isSome_iff_exists] at ha hb hc hd he hf
      obtain ⟨va, ha⟩ := ha; obtain ⟨vb, hb⟩ := hb; obtain ⟨vc, hc⟩ := hc
      obtain ⟨vd, hd⟩ := hd; obtain ⟨ve, he⟩ := he; obtain ⟨vf, hf⟩ := hf
      exact ⟨a, b, c, d, e, f, va, vb, vc, vd, ve, vf, ha, hb, hc, hd, he,
        hf, Or.inr rfl, (hex_to_rgb_six ha hb hc hd he hf).2⟩
  · obtain ⟨hlen, hall⟩ := h
    obtain ⟨a, b, c, d, e, f, rfl⟩ := list_length_six hlen
    simp only [List.all_eq_true, List.mem_cons, List.not_mem_nil] at hall
    have ha := hall a (by simp)
    have hb := hall b (by simp)
    have hc := hall c (by simp)
    have hd := hall d (by simp)
    have he := hall e (by simp)
    have hf := hall f (by simp)
    simp only [isHexDigit, Option.isSome_iff_exists] at ha hb hc hd he hf
    obtain ⟨va, ha⟩ := ha; obtain ⟨vb, hb⟩ := hb; obtain ⟨vc, hc⟩ := hc
    obtain ⟨vd, hd⟩ := hd; obtain ⟨ve, he⟩ := he; obtain ⟨vf, hf⟩ := hf
    exact ⟨a, b, c, d, e, f, va, vb, vc, vd, ve, vf, ha, hb, hc, hd, he,
      hf, Or.inl rfl, (hex_to_rgb_six ha hb hc hd he hf).1⟩

/-- A valid color string parses into three channels in `[0, 255]`. -/
lemma valid_parse_bounds {x : String} (h : isValidHex6 x = true) :
    ∃ R G B : ℤ, hex_to_rgb x = some (R, G, B) ∧
      0 ≤ R ∧ R ≤ 255 ∧ 0 ≤ G ∧ G ≤ 255 ∧ 0 ≤ B ∧ B ≤ 255 := by
  obtain ⟨a, b, c, d, e, f, va, vb, vc, vd, ve, vf,
    ha, hb, hc, hd, he, hf, -, hparse⟩ := valid_parse h
  have h1 := (hexVal_props ha).1
  have h2 := (hexVal_props hb).1
  have h3 := (hexVal_props hc).1
  have h4 := (hexVal_props hd).1
  have h5 := (hexVal_props he).1
  have h6 := (hexVal_props hf).1
  exact ⟨_, _, _, hparse, by positivity, by exact_mod_cast by omega,
    by positivity, by exact_mod_cast by omega,
    by positivity, by exact_mod_cast by omega⟩

lemma check_range_ge_one {x : ℚ} (hx : 1 ≤ x) : check_range x = 1 := by
  unfold check_range
  split_ifs <;> linarith

lemma check_range_le_zero {x : ℚ} (hx : x ≤ 0) : check_range x = 0 := by
  unfold check_range
  split_ifs <;> linarith

/-!
## The claims -/

/-- C7: for every RGB triple with `r = g = b` (each channel in
`[0, 255]`), `rgb_to_hsl` returns exactly `(0, 0, l)` with `l = r / 255`,
short-circuiting hue and saturation to zero. -/
theorem rgb_to_hsl_achromatic (r : ℕ) (_hr : r ≤ 255) :
    rgb_to_hsl (r : ℚ) (r : ℚ) (r : ℚ) = (0, 0, (r : ℚ) / 255) := by
  have key : ((r : ℚ) / 255 + (r : ℚ) / 255) / 2 = (r : ℚ) / 255 := by ring
  simp only [rgb_to_hsl, max_self, min_self, eq_self_iff_true, if_true, key]

theorem rgb_to_hsl_achromatic_witness :
    (128 : ℕ) ≤ 255 ∧
      rgb_to_hsl ((128 : ℕ) : ℚ) ((128 : ℕ) : ℚ) ((128 : ℕ) : ℚ) =
        (0, 0, ((128 : ℕ) : ℚ) / 255) :=
  ⟨by norm_num, rgb_to_hsl_achromatic 128 (by norm_num)⟩

/-- C8: the reconstruction `_v` first wraps its hue argument modulo 1
into `[0, 1)` and then follows exactly the spec's four-branch piecewise
definition with breakpoints `1/6`, `1/2`, `2/3`. -/
theorem v_matches_componentSpec :
    ∀ m1 m2 hue : ℚ, (0 ≤ pyMod1 hue ∧ pyMod1 hue < 1) ∧
      _v m1 m2 hue = componentSpec m1 m2 hue := by
  intro m1 m2 hue
  refine ⟨⟨pyMod1_nonneg hue, pyMod1_lt_one hue⟩, ?_⟩
  have h6 : ONE_SIXTH = 1 / 6 := by norm_num [ONE_SIXTH]
  have h23 : TWO_THIRD = 2 / 3 := by norm_num [TWO_THIRD]
  have h05 : (0.5 : ℚ) = 1 / 2 := by norm_num
  have h60 : (6.0 : ℚ) = 6 := by norm_num
  simp only [_v, componentSpec, h6, h23, h05, h60]

/-- C10: `hex_to_rgb` removes any number of `'#'` characters from both
ends of its input, so `'b4befe#'`, `'##b4befe'` and `'#b4befe#'` all
parse like `'#b4befe'`. -/
theorem hex_to_rgb_strips_both_ends :
    (∀ s : List Char,
      hex_to_rgb (String.mk ('#' :: s)) = hex_to_rgb (String.mk s) ∧
      hex_to_rgb (String.mk (s ++ ['#'])) = hex_to_rgb (String.mk s)) ∧
    hex_to_rgb "b4befe#" = some (180, 190, 254) ∧
    hex_to_rgb "##b4befe" = some (180, 190, 254) ∧
    hex_to_rgb "#b4befe#" = some (180, 190, 254) ∧
    hex_to_rgb "#b4befe" = some (180, 190, 254) := by
  refine ⟨fun s => ⟨?_, ?_⟩, by decide, by decide, by decide, by decide⟩
  · have h1 : (String.mk ('#' :: s)).data = '#' :: s := rfl
    have h2 : (String.mk s).data = s := rfl
    simp only [hex_to_rgb, h1, h2, pyStrip_cons_hash]
  · have h1 : (String.mk (s ++ ['#'])).data = s ++ ['#'] := rfl
    have h2 : (String.mk s).data = s := rfl
    simp only [hex_to_rgb, h1, h2, pyStrip_append_hash]

/-- C1 (code bug): in the achromatic branch `hsl_to_rgb` returns the raw
float triple `(l, l, l)` without the `0-1 → 0-255` scale-and-round the
claim (and the function's own docstring) promises: at `(h, s, l) =
(0.3, 0, 0.5)` the code yields `(0.5, 0.5, 0.5)`, not
`(round(0.5*255), ...) = (128, 128, 128)`. -/
theorem hsl_to_rgb_achromatic_unscaled :
    hsl_to_rgb 0.3 0 0.5 = (0.5, 0.5, 0.5) ∧
    pyRound ((0.5 : ℚ) * 255) = 128 ∧ ((0.5 : ℚ), (0.5 : ℚ), (0.5 : ℚ)) ≠
      (((128 : ℤ) : ℚ), ((128 : ℤ) : ℚ), ((128 : ℤ) : ℚ)) := by
  refine ⟨by norm_num [hsl_to_rgb], ?_, by norm_num [Prod.ext_iff]⟩
  have hfl : ⌊(0.5 : ℚ) * 255⌋ = 127 := by
    norm_num [Int.floor_eq_iff]
  norm_num [pyRound, hfl]

/-- C2 (code bug): the hex→HSL→hex round trip is not within ±1 per
channel for achromatic colors: `#808080` comes back as `#000000`
(each channel off by 128), because the achromatic branch of
`hsl_to_rgb` skips the 255 scaling. -/
theorem grey_roundtrip_breaks :
    hex_to_rgb "#808080" = some (128, 128, 128) ∧
    hex_to_hsl "#808080" = some (0, 0, 128 / 255) ∧
    hsl_to_hex 0 0 (128 / 255) = "#000000" ∧
    hex_to_rgb "#000000" = some (0, 0, 0) := by
  have h1 : hex_to_rgb "#808080" = some (128, 128, 128) := by decide
  have hhsl : rgb_to_hsl ((128 : ℤ) : ℚ) ((128 : ℤ) : ℚ) ((128 : ℤ) : ℚ) =
      (0, 0, 128 / 255) := by
    simp only [rgb_to_hsl, max_self, min_self, if_pos rfl]
    norm_num [Prod.ext_iff]
  refine ⟨h1, ?_, ?_, by decide⟩
  · simp only [hex_to_hsl, h1, Option.map_some']
    rw [hhsl]
  · have hfloor : ⌊(128 : ℚ) / 255⌋ = 0 := by
      norm_num [Int.floor_eq_iff]
    have hint : pyInt ((128 : ℚ) / 255) = 0 := by
      rw [pyInt, if_pos (by norm_num), hfloor]
    have hres : hsl_to_rgb 0 0 ((128 : ℚ) / 255) =
        (128 / 255, 128 / 255, 128 / 255) := by
      simp [hsl_to_rgb]
    rw [hsl_to_hex, hres]
    simp only [rgb_to_hex, hint]
    decide

/-- C3 counterexample: `"aabbccdd"` is not 6 hex digits after stripping
(it has 8), yet `hex_to_rgb` raises no error — it parses the first three
digit pairs and ignores the rest. -/
theorem hex_to_rgb_overlong_no_error :
    isValidHex6 "aabbccdd" = false ∧
    "aabbccdd".data.length = 8 ∧
    "aabbccdd".data.all isHexDigit = true ∧
    hex_to_rgb "aabbccdd" = some (170, 187, 204) := by
  decide

/-- C3 (amended): on an input whose characters are all hex digits, the
error is raised exactly when the input is shorter than 5 characters (the
slice at offset 4 is then empty): well-formed 6-digit inputs never raise,
but neither do longer ones, and even 5-digit inputs parse (the last
channel from a single digit). -/
theorem hex_to_rgb_error_iff (l : List Char)
    (hhex : ∀ c ∈ l, (hexVal? c).isSome) :
    (hex_to_rgb (String.mk l) = none ↔ l.length ≤ 4) := by
  have hv : ∀ c ∈ l, ∃ v, hexVal? c = some v := by
    intro c hc
    exact Option.isSome_iff_exists.mp (hhex c hc)
  have hnh : ∀ c ∈ l, (c == '#') = false := by
    intro c hc
    obtain ⟨v, hvc⟩ := hv c hc
    exact (hexVal_props hvc).2.2.1
  have hstrip : pyStrip l = l := pyStrip_of_no_hash hnh
  have hdata : (String.mk l).data = l := rfl
  rcases l with - | ⟨a, l⟩
  · simp only [List.length_nil]
    exact ⟨fun _ => by omega, fun _ => by decide⟩
  obtain ⟨va, ha⟩ := hv a (by simp)
  rcases l with - | ⟨b, l⟩
  · simp only [hex_to_rgb, hdata, hstrip, pySlice, List.drop, List.take,
      pyIntHex_single ha]
    simp [pyIntHex]
  obtain ⟨vb, hb⟩ := hv b (by simp)
  rcases l with - | ⟨c, l⟩
  · simp only [hex_to_rgb, hdata, hstrip, pySlice, List.drop, List.take,
      pyIntHex_pair ha hb]
    simp [pyIntHex]
  obtain ⟨vc, hc⟩ := hv c (by simp)
  rcases l with - | ⟨d, l⟩
  · simp only [hex_to_rgb, hdata, hstrip, pySlice, List.drop, List.take,
      pyIntHex_pair ha hb, pyIntHex_single hc]
    simp [pyIntHex]
  obtain ⟨vd, hd⟩ := hv d (by simp)
  rcases l with - | ⟨e, l⟩
  · simp only [hex_to_rgb, hdata, hstrip, pySlice, List.drop, List.take,
      pyIntHex_pair ha hb, pyIntHex_pair hc hd]
    simp [pyIntHex]
  obtain ⟨ve, he⟩ := hv e (by simp)
  rcases l with - | ⟨f, l⟩
  · simp only [hex_to_rgb, hdata, hstrip, pySlice, List.drop, List.take,
      pyIntHex_pair ha hb, pyIntHex_pair hc hd, pyIntHex_single he]
    simp
  obtain ⟨vf, hf⟩ := hv f (by simp)
  simp only [hex_to_rgb, hdata, hstrip, pySlice, List.drop, List.take,
    pyIntHex_pair ha hb, pyIntHex_pair hc hd, pyIntHex_pair he hf]
  simp [List.length_cons]

theorem hex_to_rgb_error_iff_witness :
    (hex_to_rgb (String.mk "aabbccdd".data) = none ↔
      "aabbccdd".data.length ≤ 4) :=
  hex_to_rgb_error_iff "aabbccdd".data (by decide)

/-- C4: for every valid 6-hex-digit color string (optionally
`'#'`-prefixed, any letter case), `rgb_to_hex` applied to the triple
`hex_to_rgb` returns yields the input normalised: lowercase,
`'#'`-prefixed, each channel zero-padded to two hex digits. -/
theorem rgb_to_hex_hex_to_rgb_normalises (d : List Char) (pre : Bool)
    (hlen : d.length = 6) (hhex : ∀ c ∈ d, (hexVal? c).isSome) :
    ∃ R G B : ℤ,
      hex_to_rgb (String.mk (if pre then '#' :: d else d)) =
        some (R, G, B) ∧
      rgb_to_hex (R : ℚ) (G : ℚ) (B : ℚ) =
        String.mk ('#' :: d.map asciiToLower) := by
  obtain ⟨a, b, c, d', e, f, rfl⟩ := list_length_six hlen
  have hv : ∀ x ∈ [a, b, c, d', e, f], ∃ v, hexVal? x = some v :=
    fun x hx => Option.isSome_iff_exists.mp (hhex x hx)
  obtain ⟨va, ha⟩ := hv a (by simp)
  obtain ⟨vb, hb⟩ := hv b (by simp)
  obtain ⟨vc, hc⟩ := hv c (by simp)
  obtain ⟨vd, hd⟩ := hv d' (by simp)
  obtain ⟨ve, he⟩ := hv e (by simp)
  obtain ⟨vf, hf⟩ := hv f (by simp)
  obtain ⟨hva, -, -, -, -, -, -, -, hla, -⟩ := hexVal_props ha
  obtain ⟨hvb, -, -, -, -, -, -, -, hlb, -⟩ := hexVal_props hb
  obtain ⟨hvc, -, -, -, -, -, -, -, hlc, -⟩ := hexVal_props hc
  obtain ⟨hvd, -, -, -, -, -, -, -, hld, -⟩ := hexVal_props hd
  obtain ⟨hve, -, -, -, -, -, -, -, hle, -⟩ := hexVal_props he
  obtain ⟨hvf, -, -, -, -, -, -, -, hlf, -⟩ := hexVal_props hf
  refine ⟨((16 * va + vb : ℕ) : ℤ), ((16 * vc + vd : ℕ) : ℤ),
    ((16 * ve + vf : ℕ) : ℤ), ?_, ?_⟩
  · cases pre
    · simpa using (hex_to_rgb_six ha hb hc hd he hf).1
    · simpa using (hex_to_rgb_six ha hb hc hd he hf).2
  · have cast1 : (((16 * va + vb : ℕ) : ℤ) : ℚ) = ((16 * va + vb : ℕ) : ℚ) := by
      push_cast
      ring
    have cast2 : (((16 * vc + vd : ℕ) : ℤ) : ℚ) = ((16 * vc + vd : ℕ) : ℚ) := by
      push_cast
      ring
    have cast3 : (((16 * ve + vf : ℕ) : ℤ) : ℚ) = ((16 * ve + vf : ℕ) : ℚ) := by
      push_cast
      ring
    rw [cast1, cast2, cast3, rgb_to_hex_bytes hva hvb hvc hvd hve hvf]
    simp only [List.map_cons, List.map_nil, hla, hlb, hlc, hld, hle, hlf]

theorem rgb_to_hex_hex_to_rgb_normalises_witness :
    ∃ R G B : ℤ,
      hex_to_rgb (String.mk (if true then '#' :: "B4beFe".data
        else "B4beFe".data)) = some (R, G, B) ∧
      rgb_to_hex (R : ℚ) (G : ℚ) (B : ℚ) =
        String.mk ('#' :: "B4beFe".data.map asciiToLower) :=
  rgb_to_hex_hex_to_rgb_normalises "B4beFe".data true (by decide) (by decide)

/-- C5: the hue update of `hue` is exactly the claimed two-branch
formula; in both branches the net effect is the hue fraction shifted by
`shift/360` and hard-clamped into `[0, 1]` (`check_range` is a clamp,
never a modulo-1 wrap). -/
theorem hue_shift_formula :
    (∀ (color : String) (shift : ℤ),
      hue color shift = (hex_to_hsl color).map fun hsl =>
        hsl_to_hex (check_range (hsl.1 + (shift : ℚ) / 360))
          hsl.2.1 hsl.2.2) ∧
    (∀ x : ℚ, check_range x = max 0 (min 1 x)) := by
  constructor
  · intro color shift
    unfold hue
    cases hx : hex_to_hsl color with
    | none => rfl
    | some p =>
      simp only [Option.map_some']
      congr 1
      show hsl_to_hex (if shift < 0 then
          check_range ((p.1 * 3.6 - (shift.natAbs : ℚ) / 100) / 3.6)
        else check_range ((p.1 * 3.6 + (shift : ℚ) / 100) / 3.6))
          p.2.1 p.2.2 =
        hsl_to_hex (check_range (p.1 + (shift : ℚ) / 360)) p.2.1 p.2.2
      by_cases hs : shift < 0
      · rw [if_pos hs]
        have h1 : (shift.natAbs : ℤ) = -shift := by omega
        have hcast : ((shift.natAbs : ℕ) : ℚ) = ((shift.natAbs : ℤ) : ℚ) :=
          (Int.cast_natCast shift.natAbs).symm
        have habs : ((shift.natAbs : ℕ) : ℚ) = -(shift : ℚ) := by
          rw [hcast, h1]
          push_cast
          ring
        have harg : (p.1 * 3.6 - ((shift.natAbs : ℕ) : ℚ) / 100) / 3.6 =
            p.1 + (shift : ℚ) / 360 := by
          rw [habs, show (3.6 : ℚ) = 18 / 5 from by norm_num]
          ring
        rw [harg]
      · rw [if_neg hs]
        have harg : (p.1 * 3.6 + (shift : ℚ) / 100) / 3.6 =
            p.1 + (shift : ℚ) / 360 := by
          rw [show (3.6 : ℚ) = 18 / 5 from by norm_num]
          ring
        rw [harg]
  · intro x
    unfold check_range
    split_ifs with h1 h2
    · rw [min_eq_right (by linarith), max_eq_left (by linarith)]
    · rw [min_eq_left (by linarith)]
      norm_num
    · rw [min_eq_right (by linarith), max_eq_right (by linarith)]

/-- C6: over-shifting clamps instead of wrapping: on a valid hex color,
`saturation(color, 1000)` equals `saturation(color, 100)` (both pin the
saturation fraction at 1) and `lightness(color, -1000)` equals
`lightness(color, -100)` (both pin the lightness fraction at 0). -/
theorem saturation_lightness_overshift_clamp (color : String)
    (h : isValidHex6 color = true) :
    saturation color 1000 = saturation color 100 ∧
    lightness color (-1000) = lightness color (-100) := by
  obtain ⟨R, G, B, hparse, hR0, hR1, hG0, hG1, hB0, hB1⟩ :=
    valid_parse_bounds h
  have hhsl : hex_to_hsl color = some (rgb_to_hsl (R : ℚ) (G : ℚ) (B : ℚ)) := by
    rw [hex_to_hsl, hparse, Option.map_some']
  obtain ⟨-, -, hs0, -, -, hl1, -⟩ :=
    @rgb_to_hsl_bounds (R : ℚ) (G : ℚ) (B : ℚ)
      (by exact_mod_cast hR0) (by exact_mod_cast hR1)
      (by exact_mod_cast hG0) (by exact_mod_cast hG1)
      (by exact_mod_cast hB0) (by exact_mod_cast hB1)
  set p := rgb_to_hsl (R : ℚ) (G : ℚ) (B : ℚ) with hp
  constructor
  · have e1 : saturation color 1000 =
        some (hsl_to_hex p.1 (check_range (p.2.1 + ((1000 : ℤ) : ℚ) / 100))
          p.2.2) := by
      rw [saturation, hhsl, Option.map_some']
      show some (hsl_to_hex p.1 (if (1000 : ℤ) < 0 then
          check_range (p.2.1 - (((1000 : ℤ).natAbs : ℕ) : ℚ) / 100)
        else check_range (p.2.1 + ((1000 : ℤ) : ℚ) / 100)) p.2.2) = _
      rw [if_neg (by norm_num)]
    have e2 : saturation color 100 =
        some (hsl_to_hex p.1 (check_range (p.2.1 + ((100 : ℤ) : ℚ) / 100))
          p.2.2) := by
      rw [saturation, hhsl, Option.map_some']
      show some (hsl_to_hex p.1 (if (100 : ℤ) < 0 then
          check_range (p.2.1 - (((100 : ℤ).natAbs : ℕ) : ℚ) / 100)
        else check_range (p.2.1 + ((100 : ℤ) : ℚ) / 100)) p.2.2) = _
      rw [if_neg (by norm_num)]
    have c1 : check_range (p.2.1 + ((1000 : ℤ) : ℚ) / 100) = 1 :=
      check_range_ge_one (by push_cast; linarith)
    have c2 : check_range (p.2.1 + ((100 : ℤ) : ℚ) / 100) = 1 :=
      check_range_ge_one (by push_cast; linarith)
    rw [e1, e2, c1, c2]
  · have e1 : lightness color (-1000) =
        some (hsl_to_hex p.1 p.2.1
          (check_range (p.2.2 - ((((-1000) : ℤ).natAbs : ℕ) : ℚ) / 100))) := by
      rw [lightness, hhsl, Option.map_some']
      show some (hsl_to_hex p.1 p.2.1 (if ((-1000) : ℤ) < 0 then
          check_range (p.2.2 - ((((-1000) : ℤ).natAbs : ℕ) : ℚ) / 100)
        else check_range (p.2.2 + (((-1000) : ℤ) : ℚ) / 100))) = _
      rw [if_pos (by norm_num)]
    have e2 : lightness color (-100) =
        some (hsl_to_hex p.1 p.2.1
          (check_range (p.2.2 - ((((-100) : ℤ).natAbs : ℕ) : ℚ) / 100))) := by
      rw [lightness, hhsl, Option.map_some']
      show some (hsl_to_hex p.1 p.2.1 (if ((-100) : ℤ) < 0 then
          check_range (p.2.2 - ((((-100) : ℤ).natAbs : ℕ) : ℚ) / 100)
        else check_range (p.2.2 + (((-100) : ℤ) : ℚ) / 100))) = _
      rw [if_pos (by norm_num)]
    have habs1 : ((((-1000) : ℤ).natAbs : ℕ) : ℚ) = 1000 := by
      norm_num
    have habs2 : ((((-100) : ℤ).natAbs : ℕ) : ℚ) = 100 := by
      norm_num
    have c1 : check_range (p.2.2 - (1000 : ℚ) / 100) = 0 :=
      check_range_le_zero (by linarith)
    have c2 : check_range (p.2.2 - (100 : ℚ) / 100) = 0 :=
      check_range_le_zero (by linarith)
    rw [e1, e2, habs1, habs2, c1, c2]

theorem saturation_lightness_overshift_clamp_witness :
    saturation "#b4befe" 1000 = saturation "#b4befe" 100 ∧
    lightness "#b4befe" (-1000) = lightness "#b4befe" (-100) :=
  saturation_lightness_overshift_clamp "#b4befe" (by decide)

/-- C9: for `(h, s, l)` each in `[0, 1]` with `s > 0`, the intermediates
satisfy `0 ≤ m1 ≤ m2 ≤ 1` and `hsl_to_rgb` returns three integers in
`[0, 255]`; consequently `hue`, `saturation` and `lightness` on a
non-achromatic valid hex color each return a well-formed `'#'`-prefixed
6-digit lowercase hex string. -/
theorem hsl_to_rgb_in_range_and_shifts_wellformed :
    (∀ h s l : ℚ, 0 ≤ h → h ≤ 1 → 0 < s → s ≤ 1 → 0 ≤ l → l ≤ 1 →
      (0 ≤ hsl_m1 s l ∧ hsl_m1 s l ≤ hsl_m2 s l ∧ hsl_m2 s l ≤ 1) ∧
      ∃ x y z : ℤ, hsl_to_rgb h s l = ((x : ℚ), (y : ℚ), (z : ℚ)) ∧
        0 ≤ x ∧ x ≤ 255 ∧ 0 ≤ y ∧ y ≤ 255 ∧ 0 ≤ z ∧ z ≤ 255) ∧
    (∀ (color : String) (shift : ℤ) (R G B : ℤ),
      isValidHex6 color = true → hex_to_rgb color = some (R, G, B) →
      ¬(R = G ∧ G = B) →
      ∃ o1 o2 o3 : String,
        hue color shift = some o1 ∧ saturation color shift = some o2 ∧
        lightness color shift = some o3 ∧
        wellFormedHex o1 = true ∧ wellFormedHex o2 = true ∧
        wellFormedHex o3 = true) := by
  constructor
  · intro h s l _h0 _h1 hs0 hs1 hl0 hl1
    exact ⟨m_chain hs0 hs1 hl0 hl1, hsl_to_rgb_chromatic hs0 hs1 hl0 hl1⟩
  · intro color shift R G B hvalid hparse _hne
    obtain ⟨R', G', B', hparse', hR0, hR1, hG0, hG1, hB0, hB1⟩ :=
      valid_parse_bounds hvalid
    rw [hparse] at hparse'
    simp only [Option.some.injEq, Prod.mk.injEq] at hparse'
    obtain ⟨rfl, rfl, rfl⟩ := hparse'
    have hhsl : hex_to_hsl color =
        some (rgb_to_hsl (R : ℚ) (G : ℚ) (B : ℚ)) := by
      rw [hex_to_hsl, hparse, Option.map_some']
    obtain ⟨hh0, hh1, hs0, hs1, hl0, hl1, -⟩ :=
      @rgb_to_hsl_bounds (R : ℚ) (G : ℚ) (B : ℚ)
        (by exact_mod_cast hR0) (by exact_mod_cast hR1)
        (by exact_mod_cast hG0) (by exact_mod_cast hG1)
        (by exact_mod_cast hB0) (by exact_mod_cast hB1)
    set p := rgb_to_hsl (R : ℚ) (G : ℚ) (B : ℚ) with hp
    have ehue : hue color shift = some (hsl_to_hex
        (if shift < 0 then
          check_range ((p.1 * 3.6 - ((shift.natAbs : ℕ) : ℚ) / 100) / 3.6)
        else check_range ((p.1 * 3.6 + (shift : ℚ) / 100) / 3.6))
        p.2.1 p.2.2) := by
      rw [hue, hhsl, Option.map_some']
    have esat : saturation color shift = some (hsl_to_hex p.1
        (if shift < 0 then
          check_range (p.2.1 - ((shift.natAbs : ℕ) : ℚ) / 100)
        else check_range (p.2.1 + (shift : ℚ) / 100)) p.2.2) := by
      rw [saturation, hhsl, Option.map_some']
    have elig : lightness color shift = some (hsl_to_hex p.1 p.2.1
        (if shift < 0 then
          check_range (p.2.2 - ((shift.natAbs : ℕ) : ℚ) / 100)
        else check_range (p.2.2 + (shift : ℚ) / 100))) := by
      rw [lightness, hhsl, Option.map_some']
    have wsat : 0 ≤ (if shift < 0 then
          check_range (p.2.1 - ((shift.natAbs : ℕ) : ℚ) / 100)
        else check_range (p.2.1 + (shift : ℚ) / 100)) ∧
        (if shift < 0 then
          check_range (p.2.1 - ((shift.natAbs : ℕ) : ℚ) / 100)
        else check_range (p.2.1 + (shift : ℚ) / 100)) ≤ 1 := by
      split_ifs <;> exact check_range_mem _
    have wlig : 0 ≤ (if shift < 0 then
          check_range (p.2.2 - ((shift.natAbs : ℕ) : ℚ) / 100)
        else check_range (p.2.2 + (shift : ℚ) / 100)) ∧
        (if shift < 0 then
          check_range (p.2.2 - ((shift.natAbs : ℕ) : ℚ) / 100)
        else check_range (p.2.2 + (shift : ℚ) / 100)) ≤ 1 := by
      split_ifs <;> exact check_range_mem _
    exact ⟨_, _, _, ehue, esat, elig,
      hsl_to_hex_wf hs0 hs1 hl0 hl1,
      hsl_to_hex_wf wsat.1 wsat.2 hl0 hl1,
      hsl_to_hex_wf hs0 hs1 wlig.1 wlig.2⟩
